import Mathlib

/-!
Verification development for the AX template ASR system
(`src/api/ax_template_api.h` plus the inference-orchestration pipeline
described in the accompanying design document).

The repository slice ships only the C interface header; the pipeline it
declares (configuration resolution, tokenizer, audio preprocessing,
encoder/decoder sessions, the autoregressive decode loop, text assembly
and the `Init`/`Run*`/`Uninit` lifecycle) is modelled here from the
design document, faithful to its words, as executable Lean definitions.
-/

/-- Modelled from the spec: resolved model Configuration (§3 "Configuration"):
sample rate, special token ids (start/end/pad/unknown), max output length,
and the feature frame size the preprocessor pads or truncates to.
The implementation holding this record is not in the repository slice. -/
structure Config where
  sampleRate : Nat
  startId : Nat
  endId : Nat
  padId : Nat
  unkId : Nat
  maxOutLen : Nat
  featureLen : Nat
deriving DecidableEq

/-- Modelled from the spec: the reserved control ids of §3 "Vocabulary"
(start/end/pad/unknown), which must never appear in assembled text. -/
def Config.isReserved (cfg : Config) (t : Nat) : Bool :=
  t == cfg.startId || t == cfg.endId || t == cfg.padId || t == cfg.unkId

/-- Greatest score in a distribution (head-seeded fold; the empty case is
never used by the decoder, which only scores non-empty vocabularies). -/
def maxVal : List Int → Int
  | [] => 0
  | [s] => s
  | s :: r :: rest => max s (maxVal (r :: rest))

/-- Modelled from the spec: greedy token selection (§4.5): argmax over the
probability distribution, and "when multiple tokens share the maximum
score, pick the lowest token id". A token id is its index in the
distribution, so selection returns the first index attaining the maximum. -/
def selectToken : List Int → Nat
  | [] => 0
  | [_] => 0
  | s :: r :: rest => if s < maxVal (r :: rest) then selectToken (r :: rest) + 1 else 0

theorem maxVal_cons (s r : Int) (rest : List Int) :
    maxVal (s :: r :: rest) = max s (maxVal (r :: rest)) := rfl

theorem le_maxVal (l : List Int) (v : Int) (hv : v ∈ l) : v ≤ maxVal l := by
  induction l with
  | nil => cases hv
  | cons s rest ih =>
    cases rest with
    | nil =>
      rcases List.mem_singleton.mp hv with rfl
      exact le_refl _
    | cons r rs =>
      rw [maxVal_cons]
      rcases List.mem_cons.mp hv with rfl | hv
      · exact le_max_left _ _
      · exact le_trans (ih hv) (le_max_right _ _)

theorem selectToken_lt_length (l : List Int) (hl : l ≠ []) :
    selectToken l < l.length := by
  induction l with
  | nil => exact absurd rfl hl
  | cons s rest ih =>
    cases rest with
    | nil => simp [selectToken]
    | cons r rs =>
      by_cases h : s < maxVal (r :: rs)
      · have h2 := ih (by simp)
        simp only [List.length_cons] at h2
        simp only [selectToken, if_pos h, List.length_cons]
        omega
      · simp [selectToken, if_neg h]

theorem get_selectToken (l : List Int) (hl : l ≠ []) :
    l.get? (selectToken l) = some (maxVal l) := by
  induction l with
  | nil => exact absurd rfl hl
  | cons s rest ih =>
    cases rest with
    | nil => simp [selectToken, maxVal]
    | cons r rs =>
      by_cases h : s < maxVal (r :: rs)
      · simp only [selectToken, if_pos h, List.get?_cons_succ, maxVal_cons]
        rw [ih (by simp), max_eq_right (le_of_lt h)]
      · simp only [selectToken, if_neg h, List.get?_cons_zero, maxVal_cons]
        rw [max_eq_left (le_of_not_lt h)]

theorem selectToken_first (l : List Int) (j : Nat) (hj : j < selectToken l) :
    ∀ v, l.get? j = some v → v < maxVal l := by
  induction l generalizing j with
  | nil => simp [selectToken] at hj
  | cons s rest ih =>
    cases rest with
    | nil => simp [selectToken] at hj
    | cons r rs =>
      by_cases h : s < maxVal (r :: rs)
      · simp only [selectToken, if_pos h] at hj
        cases j with
        | zero =>
          intro v hv
          simp only [List.get?_cons_zero, Option.some.injEq] at hv
          subst hv
          rw [maxVal_cons, max_eq_right (le_of_lt h)]
          exact h
        | succ j' =>
          intro v hv
          simp only [List.get?_cons_succ] at hv
          rw [maxVal_cons, max_eq_right (le_of_lt h)]
          exact ih j' (Nat.lt_of_succ_lt_succ hj) v hv
      · simp [selectToken, if_neg h] at hj

/-- Terminal states of the autoregressive controller (§4.5); `Failed` is
represented by the decode functions returning `none`. -/
inductive Terminal where
  | done
  | truncatedByMaxLength
deriving DecidableEq

/-- A decoder-graph invocation (§4.5 "Stepping"): from the current output
token sequence (the latent representation is already baked in) to a
probability distribution over the vocabulary, or `none` on an underlying
inference failure. -/
def DecStep : Type := List Nat → Option (List Int)

/-- Modelled from the spec: the §4.5 step loop, not in the repository
slice. Fuel is the number of steps still allowed before the sequence
reaches the max output length. Each step scores the current sequence,
greedily selects the next token, appends it; an end token yields `Done`,
exhausted fuel yields `TruncatedByMaxLength`, a failed inference yields
`none` (`Failed`). -/
def decodeSteps (step : DecStep) (endId : Nat) :
    Nat → List Nat → Option (List Nat × Terminal)
  | 0, acc => some (acc, Terminal.truncatedByMaxLength)
  | fuel + 1, acc =>
    match step acc with
    | none => none
    | some dist =>
      let t := selectToken dist
      if t = endId then some (acc ++ [t], Terminal.done)
      else decodeSteps step endId fuel (acc ++ [t])

/-- Modelled from the spec: §4.5 `Start` state — the output sequence is
initialized with the start token (current_length = 1), then the step loop
runs while the length is below the configured max output length. -/
def decodeLoop (step : DecStep) (cfg : Config) : Option (List Nat × Terminal) :=
  decodeSteps step cfg.endId (cfg.maxOutLen - 1) [cfg.startId]

theorem decodeSteps_length (step : DecStep) (endId : Nat) (fuel : Nat)
    (acc : List Nat) (r : List Nat × Terminal)
    (h : decodeSteps step endId fuel acc = some r) :
    r.1.length ≤ acc.length + fuel := by
  induction fuel generalizing acc with
  | zero =>
    simp only [decodeSteps, Option.some.injEq] at h
    subst h
    simp
  | succ fuel ih =>
    simp only [decodeSteps] at h
    cases hs : step acc with
    | none => rw [hs] at h; cases h
    | some dist =>
      rw [hs] at h
      simp only at h
      by_cases ht : selectToken dist = endId
      · rw [if_pos ht] at h
        simp only [Option.some.injEq] at h
        subst h
        simp only [List.length_append, List.length_cons, List.length_nil]
        omega
      · rw [if_neg ht] at h
        have := ih (acc ++ [selectToken dist]) h
        simp only [List.length_append, List.length_cons, List.length_nil] at this
        omega

/-- Modelled from the spec: the Vocabulary (§3, §4.2) as the ordered list
of text fragments from `{model_type}-tokens.txt`; a token id indexes it. -/
def Vocab : Type := List String

/-- Modelled from the spec: the §4.2/§2.7 Text Assembler, not in the
repository slice — "concatenates fragments for each id in order, skipping
reserved control ids". Ids outside the vocabulary contribute nothing. -/
def assembleFrags (vocab : Vocab) (cfg : Config) : List Nat → List String
  | [] => []
  | t :: rest =>
    if cfg.isReserved t then assembleFrags vocab cfg rest
    else
      match List.get? vocab t with
      | some frag => frag :: assembleFrags vocab cfg rest
      | none => assembleFrags vocab cfg rest

/-- The assembled output text: the fragment list, concatenated. -/
def assemble (vocab : Vocab) (cfg : Config) (toks : List Nat) : String :=
  String.join (assembleFrags vocab cfg toks)

/-- Audio-stage failures (§4.3, §7). -/
inductive AudioError where
  | emptyInput
  | unsupported
deriving DecidableEq

/-- Run-time failures of the transcription pipeline (§7 taxonomy; the
load-time classes surface as a null handle at `Init`, not here). -/
inductive RunError where
  | audio (e : AudioError)
  | inference
deriving DecidableEq

/-- Negative boundary status code of a run-time failure (§6: "status 0 =
success; negative = error"). -/
def statusOf : RunError → Int
  | RunError.audio AudioError.emptyInput => -2
  | RunError.audio AudioError.unsupported => -3
  | RunError.inference => -4

theorem statusOf_neg (e : RunError) : statusOf e < 0 := by
  cases e with
  | audio a => cases a <;> decide
  | inference => decide

/-- Modelled from the spec: the §4.3 Audio Preprocessor, not in the
repository slice. Samples are 16 kHz mono float PCM, modelled as exact
rationals. Fails with `EmptyInput` when the sample count is 0; otherwise
pads with silence or truncates to the configured feature frame size. -/
def prepare (cfg : Config) (samples : List Rat) : Except AudioError (List Rat) :=
  if samples.length = 0 then Except.error AudioError.emptyInput
  else Except.ok
    (samples.take cfg.featureLen ++
      List.replicate (cfg.featureLen - samples.length) (0 : Rat))

/-- Modelled from the spec: the Transcription Context (§3, §4.6) behind the
opaque `AX_TEMPLATE_HANDLE` — encoder session, decoder session, vocabulary,
resolved configuration and the language selected at init. The sessions are
modelled by their §4.4/§4.5 run contracts: functions that may fail. -/
structure Context where
  cfg : Config
  vocab : Vocab
  encode : List Rat → Option (List Int)
  decode : List Int → DecStep
  language : String

/-- Modelled from the spec: the shared internal pipeline of §4.6 —
`transcribe(audio_buffer) -> text | Error`: Preprocessor, Encoder Session,
Decoder Controller, Text Assembler. `TruncatedByMaxLength` is surfaced as
success with the best-effort text (§7). -/
def transcribe (ctx : Context) (samples : List Rat) : Except RunError String :=
  match prepare ctx.cfg samples with
  | Except.error e => Except.error (RunError.audio e)
  | Except.ok feat =>
    match ctx.encode feat with
    | none => Except.error RunError.inference
    | some latent =>
      match decodeLoop (ctx.decode latent) ctx.cfg with
      | none => Except.error RunError.inference
      | some r => Except.ok (assemble ctx.vocab ctx.cfg r.1)

/-- Modelled from the spec: `AX_TEMPLATE_RunPCM` on a valid handle
(header section of `RunPCM`; §4.6, §6). State-passing form: the call
returns the context it leaves behind, the status code, and the result
string (`none` models a null `*result`). Success writes the allocated
text and returns 0; any run-time failure returns a negative status and
leaves the context untouched. -/
def runPCM (ctx : Context) (pcm : List Rat) : Context × Int × Option String :=
  match transcribe ctx pcm with
  | Except.ok text => (ctx, 0, some text)
  | Except.error e => (ctx, statusOf e, none)

theorem runPCM_fst (ctx : Context) (pcm : List Rat) : (runPCM ctx pcm).1 = ctx := by
  unfold runPCM
  cases transcribe ctx pcm <;> rfl

/-- A WAV input file as the WAV-decoding collaborator (§1, §4.6) presents
it: header fields and the raw samples. The header documents `RunFile`
input as a "16k pcmf32 WAV audio file". -/
structure WavFile where
  sampleRate : Nat
  channels : Nat
  isFloat32 : Bool
  samples : List Rat

/-- Modelled from the spec: the preliminary WAV-decoding collaborator step
of `RunFile` (§4.6). It yields the raw PCM samples of the file as stored;
files that are not mono float32 are rejected. No resampling happens here
or later in the pipeline: the samples are handed over as-is. -/
def decodeWav (wav : WavFile) : Option (List Rat) :=
  if wav.channels = 1 ∧ wav.isFloat32 = true then some wav.samples else none

/-- Modelled from the spec: `AX_TEMPLATE_RunFile` (§4.6, §6): WAV decoding
as a collaborator step, then the same internal pipeline as `RunPCM`. -/
def runFile (ctx : Context) (wav : WavFile) : Context × Int × Option String :=
  match decodeWav wav with
  | none => (ctx, statusOf (RunError.audio AudioError.unsupported), none)
  | some samples => runPCM ctx samples

theorem runFile_fst (ctx : Context) (wav : WavFile) : (runFile ctx wav).1 = ctx := by
  unfold runFile
  cases decodeWav wav with
  | none => rfl
  | some s => exact runPCM_fst ctx s

/-- The documented precondition on the input file of `RunFile` (header:
"Path to the input 16k pcmf32 WAV audio file"). -/
def runFilePre (wav : WavFile) : Prop :=
  wav.sampleRate = 16000 ∧ wav.channels = 1 ∧ wav.isFloat32 = true

/-- Modelled from the spec: the load-time environment of `Init` (§4.6):
the outcome of each of the sequential §4.1–§4.4 loading steps
(configuration resolution, tokenizer load, encoder session load, decoder
session load); `none` means the step fails. -/
structure LoadEnv where
  resolveConfig : Option Config
  loadTokens : Option Vocab
  loadEncoder : Option (List Rat → Option (List Int))
  loadDecoder : Option (List Int → DecStep)

/-- Releasing a partially-acquired resource set leaves nothing held. -/
def releaseAll (acquired : Nat) : Nat := acquired - acquired

/-- Modelled from the spec: `AX_TEMPLATE_Init` (§4.6, §6), not in the
repository slice. Performs the §4.1–§4.4 loading steps in sequence,
counting acquired resources; any failure releases all partially-acquired
resources and returns a null handle. Returns the handle (or `none`) and
the number of resources still held at return. -/
def initContext (env : LoadEnv) (language : String) : Option Context × Nat :=
  match env.resolveConfig with
  | none => (none, releaseAll 0)
  | some cfg =>
    match env.loadTokens with
    | none => (none, releaseAll 1)
    | some vocab =>
      match env.loadEncoder with
      | none => (none, releaseAll 2)
      | some enc =>
        match env.loadDecoder with
        | none => (none, releaseAll 3)
        | some dec =>
          (some { cfg := cfg, vocab := vocab, encode := enc,
                  decode := dec, language := language }, 4)

/-- File paths looked up by `Init`, as documented in its interface
(`src/src/api/ax_template_api.h`, lines 33–38). -/
def encoderModelPath (model_path model_type : String) : String :=
  model_path ++ "/" ++ model_type ++ "/" ++ model_type ++ "-encoder.axmodel"

/-- Decoder model path documented at `ax_template_api.h` line 36. -/
def decoderModelPath (model_path model_type : String) : String :=
  model_path ++ "/" ++ model_type ++ "/" ++ model_type ++ "-decoder.axmodel"

/-- Token-vocabulary path documented at `ax_template_api.h` line 37. -/
def tokensFilePath (model_path model_type : String) : String :=
  model_path ++ "/" ++ model_type ++ "/" ++ model_type ++ "-tokens.txt"

/-- Configuration path documented at `ax_template_api.h` line 38. -/
def configFilePath (model_path model_type : String) : String :=
  model_path ++ "/" ++ model_type ++ "/" ++ model_type ++ "_config.json"

/-- Modelled from the spec: the abstract §4.1 resolution policy for the
encoder/decoder graphs, with the model extension a placeholder parameter. -/
def specComponentPath (model_path model_type component ext : String) : String :=
  model_path ++ "/" ++ model_type ++ "/" ++ model_type ++ "-" ++
    component ++ "." ++ ext

/-- Modelled from the spec: the §4.1 tokens-file pattern. -/
def specTokensPath (model_path model_type : String) : String :=
  model_path ++ "/" ++ model_type ++ "/" ++ model_type ++ "-tokens" ++ ".txt"

/-- Modelled from the spec: the §4.1 configuration-file pattern. -/
def specConfigPath (model_path model_type : String) : String :=
  model_path ++ "/" ++ model_type ++ "/" ++ model_type ++ "_config" ++ ".json"

/-- A small concrete configuration used to exercise the pipeline. -/
def demoCfg : Config :=
  { sampleRate := 16000, startId := 0, endId := 1, padId := 2, unkId := 3,
    maxOutLen := 8, featureLen := 4 }

/-- A concrete decoder step whose distribution always peaks at the end
token, so decoding stops after one step. -/
def demoStep : DecStep := fun _ => some [0, 1]

/-- A small concrete context used to exercise the pipeline. -/
def demoCtx : Context :=
  { cfg := demoCfg
    vocab := ["<s>", "</s>", "<pad>", "<unk>", "hel", "lo"]
    encode := fun _ => some [0]
    decode := fun _ => demoStep
    language := "en" }

/-- A load environment whose tokenizer step fails, for exercising `Init`. -/
def demoEnvFail : LoadEnv :=
  { resolveConfig := some demoCfg, loadTokens := none,
    loadEncoder := none, loadDecoder := none }

/-- C1: for every PCM buffer with more than zero samples passed to
`RunPCM` on a valid handle, the call returns either status 0 together
with a non-null result string, or a negative status; it never returns
status 0 with a null result pointer. -/
theorem runPCM_success_has_result (ctx : Context) (pcm : List Rat)
    (_h : 0 < pcm.length) :
    ((runPCM ctx pcm).2.1 = 0 ∧ (runPCM ctx pcm).2.2 ≠ none) ∨
    (runPCM ctx pcm).2.1 < 0 := by
  cases ht : transcribe ctx pcm with
  | error e =>
    right
    simp only [runPCM, ht]
    exact statusOf_neg e
  | ok text =>
    left
    simp [runPCM, ht]

/-- Witness for C1 at a one-sample buffer and the demo context. -/
theorem runPCM_success_has_result_witness :
    0 < [(1 : Rat)].length ∧
    (((runPCM demoCtx [(1 : Rat)]).2.1 = 0 ∧
      (runPCM demoCtx [(1 : Rat)]).2.2 ≠ none) ∨
     (runPCM demoCtx [(1 : Rat)]).2.1 < 0) :=
  ⟨by decide, runPCM_success_has_result demoCtx [(1 : Rat)] (by decide)⟩

/-- C2: the autoregressive decoding loop is a total function (it always
terminates), and whenever it produces a token sequence, the length of
that sequence — one per decode step plus the start token — is at most the
configured max output length. -/
theorem decodeLoop_terminates_within_max (step : DecStep) (cfg : Config)
    (h : 1 ≤ cfg.maxOutLen) (toks : List Nat) (term : Terminal)
    (hr : decodeLoop step cfg = some (toks, term)) :
    toks.length ≤ cfg.maxOutLen := by
  have hb := decodeSteps_length step cfg.endId (cfg.maxOutLen - 1)
    [cfg.startId] (toks, term) hr
  simp only [List.length_cons, List.length_nil] at hb
  omega

/-- Witness for C2 at the demo step function and configuration. -/
theorem decodeLoop_terminates_within_max_witness :
    (1 ≤ demoCfg.maxOutLen ∧
     decodeLoop demoStep demoCfg = some ([0, 1], Terminal.done)) ∧
    ([0, 1] : List Nat).length ≤ demoCfg.maxOutLen :=
  ⟨⟨by decide, by decide⟩,
   decodeLoop_terminates_within_max demoStep demoCfg (by decide)
     [0, 1] Terminal.done (by decide)⟩

/-- C3: if any of the sequential loading steps of `Init` fails
(configuration resolution, tokenizer load, encoder or decoder session
load), `Init` returns a null handle with every resource acquired by the
earlier steps released; no partial Context is ever returned. -/
theorem init_failure_releases_all (env : LoadEnv) (language : String)
    (h : env.resolveConfig = none ∨ env.loadTokens = none ∨
         env.loadEncoder = none ∨ env.loadDecoder = none) :
    (initContext env language).1 = none ∧ (initContext env language).2 = 0 := by
  obtain ⟨c, t, e, d⟩ := env
  cases c <;> cases t <;> cases e <;> cases d <;>
    simp_all [initContext, releaseAll]

/-- Witness for C3 at an environment whose tokenizer load fails. -/
theorem init_failure_releases_all_witness :
    (demoEnvFail.resolveConfig = none ∨ demoEnvFail.loadTokens = none ∨
     demoEnvFail.loadEncoder = none ∨ demoEnvFail.loadDecoder = none) ∧
    ((initContext demoEnvFail "en").1 = none ∧
     (initContext demoEnvFail "en").2 = 0) :=
  ⟨Or.inr (Or.inl rfl),
   init_failure_releases_all demoEnvFail "en" (Or.inr (Or.inl rfl))⟩

/-- C4: transcription is deterministic — for any context state and any
identical audio input, a repeated `RunPCM` or `RunFile` call on the
handle state left by the first call returns exactly the same result. -/
theorem run_calls_deterministic (ctx : Context) (pcm : List Rat)
    (wav : WavFile) :
    runPCM ((runPCM ctx pcm).1) pcm = runPCM ctx pcm ∧
    runFile ((runFile ctx wav).1) wav = runFile ctx wav := by
  constructor
  · rw [runPCM_fst]
  · rw [runFile_fst]

/-- C5: every run-time failure — an audio or inference error during
`RunPCM`, a WAV-decoding (unsupported-format) failure during `RunFile`,
or an audio or inference error during `RunFile` after WAV decoding —
makes the call return a negative status and leaves the Context
unchanged, so that all subsequent `RunPCM` and `RunFile` calls on the
same handle behave as if the failed call had not occurred. -/
theorem run_failure_leaves_context_reusable (ctx : Context)
    (pcm a : List Rat) (wav wavOk w2 : WavFile) :
    (∀ e : RunError, transcribe ctx pcm = Except.error e →
      (runPCM ctx pcm).2.1 < 0 ∧ (runPCM ctx pcm).1 = ctx ∧
      runPCM ((runPCM ctx pcm).1) a = runPCM ctx a ∧
      runFile ((runPCM ctx pcm).1) w2 = runFile ctx w2) ∧
    (decodeWav wav = none →
      (runFile ctx wav).2.1 < 0 ∧ (runFile ctx wav).1 = ctx ∧
      runPCM ((runFile ctx wav).1) a = runPCM ctx a ∧
      runFile ((runFile ctx wav).1) w2 = runFile ctx w2) ∧
    (∀ (s : List Rat) (e : RunError), decodeWav wavOk = some s →
      transcribe ctx s = Except.error e →
      (runFile ctx wavOk).2.1 < 0 ∧ (runFile ctx wavOk).1 = ctx ∧
      runPCM ((runFile ctx wavOk).1) a = runPCM ctx a ∧
      runFile ((runFile ctx wavOk).1) w2 = runFile ctx w2) := by
  refine ⟨?_, ?_, ?_⟩
  · intro e he
    refine ⟨?_, runPCM_fst ctx pcm, by rw [runPCM_fst], by rw [runPCM_fst]⟩
    simp only [runPCM, he]
    exact statusOf_neg e
  · intro hw
    refine ⟨?_, runFile_fst ctx wav, by rw [runFile_fst], by rw [runFile_fst]⟩
    simp only [runFile, hw]
    decide
  · intro s e hs he
    have hrw : runFile ctx wavOk = runPCM ctx s := by
      unfold runFile
      rw [hs]
    refine ⟨?_, runFile_fst ctx wavOk, by rw [runFile_fst], by rw [runFile_fst]⟩
    rw [hrw]
    simp only [runPCM, he]
    exact statusOf_neg e

/-- Witness for C5 at the demo context: an empty buffer failing `RunPCM`,
a stereo file failing WAV decoding in `RunFile`, and a mono float32 file
with no samples failing the pipeline inside `RunFile`. -/
theorem run_failure_leaves_context_reusable_witness :
    (transcribe demoCtx [] =
       Except.error (RunError.audio AudioError.emptyInput) ∧
     decodeWav ⟨16000, 2, true, [(1 : Rat)]⟩ = none ∧
     decodeWav ⟨16000, 1, true, ([] : List Rat)⟩ = some ([] : List Rat)) ∧
    ((runPCM demoCtx []).2.1 < 0 ∧ (runPCM demoCtx []).1 = demoCtx ∧
     runPCM ((runPCM demoCtx []).1) [(1 : Rat)] =
       runPCM demoCtx [(1 : Rat)] ∧
     runFile ((runPCM demoCtx []).1) ⟨16000, 1, true, [(1 : Rat)]⟩ =
       runFile demoCtx ⟨16000, 1, true, [(1 : Rat)]⟩) ∧
    ((runFile demoCtx ⟨16000, 2, true, [(1 : Rat)]⟩).2.1 < 0 ∧
     (runFile demoCtx ⟨16000, 2, true, [(1 : Rat)]⟩).1 = demoCtx ∧
     runPCM ((runFile demoCtx ⟨16000, 2, true, [(1 : Rat)]⟩).1) [(1 : Rat)] =
       runPCM demoCtx [(1 : Rat)] ∧
     runFile ((runFile demoCtx ⟨16000, 2, true, [(1 : Rat)]⟩).1)
         ⟨16000, 1, true, [(1 : Rat)]⟩ =
       runFile demoCtx ⟨16000, 1, true, [(1 : Rat)]⟩) ∧
    ((runFile demoCtx ⟨16000, 1, true, ([] : List Rat)⟩).2.1 < 0 ∧
     (runFile demoCtx ⟨16000, 1, true, ([] : List Rat)⟩).1 = demoCtx ∧
     runPCM ((runFile demoCtx ⟨16000, 1, true, ([] : List Rat)⟩).1)
         [(1 : Rat)] =
       runPCM demoCtx [(1 : Rat)] ∧
     runFile ((runFile demoCtx ⟨16000, 1, true, ([] : List Rat)⟩).1)
         ⟨16000, 1, true, [(1 : Rat)]⟩ =
       runFile demoCtx ⟨16000, 1, true, [(1 : Rat)]⟩) := by
  have hT := run_failure_leaves_context_reusable demoCtx [] [(1 : Rat)]
    ⟨16000, 2, true, [(1 : Rat)]⟩ ⟨16000, 1, true, ([] : List Rat)⟩
    ⟨16000, 1, true, [(1 : Rat)]⟩
  exact ⟨⟨rfl, rfl, rfl⟩,
    hT.1 (RunError.audio AudioError.emptyInput) rfl,
    hT.2.1 rfl,
    hT.2.2 [] (RunError.audio AudioError.emptyInput) rfl rfl⟩

/-- C6: calling `RunPCM` with zero samples takes the empty-input error
branch and returns a negative status, never success. -/
theorem runPCM_empty_negative (ctx : Context) (pcm : List Rat)
    (h : pcm.length = 0) :
    (runPCM ctx pcm).2.1 < 0 := by
  have ht : transcribe ctx pcm =
      Except.error (RunError.audio AudioError.emptyInput) := by
    unfold transcribe prepare
    rw [if_pos h]
  simp only [runPCM, ht]
  decide

/-- Witness for C6 at the empty buffer and the demo context. -/
theorem runPCM_empty_negative_witness :
    ([] : List Rat).length = 0 ∧ (runPCM demoCtx ([] : List Rat)).2.1 < 0 :=
  ⟨rfl, runPCM_empty_negative demoCtx [] rfl⟩

/-- C7: the text assembler skips every reserved control id
(start/end/pad/unknown): assembling any token sequence yields exactly the
fragments — and hence exactly the text — of the sequence with all
reserved ids removed, so no fragment decoded from a reserved id ever
reaches the output. -/
theorem assemble_skips_reserved_ids (vocab : Vocab) (cfg : Config)
    (toks : List Nat) :
    assembleFrags vocab cfg toks =
      assembleFrags vocab cfg (toks.filter (fun t => !(cfg.isReserved t))) ∧
    assemble vocab cfg toks =
      assemble vocab cfg (toks.filter (fun t => !(cfg.isReserved t))) := by
  have h1 : ∀ ts : List Nat, assembleFrags vocab cfg ts =
      assembleFrags vocab cfg (ts.filter (fun t => !(cfg.isReserved t))) := by
    intro ts
    induction ts with
    | nil => rfl
    | cons t rest ih =>
      cases hr : cfg.isReserved t with
      | false =>
        cases hv : List.get? vocab t <;>
          simp [assembleFrags, hr, hv, List.filter_cons, ih]
      | true =>
        simp [assembleFrags, hr, List.filter_cons, ih]
  exact ⟨h1 toks, congrArg String.join (h1 toks)⟩

/-- C8: at a decode step whose distribution has more than one token
attaining the maximum score, greedy selection returns a maximizer that is
at or below every maximizer — the lowest token id among them. -/
theorem selectToken_picks_lowest_maximizer (dist : List Int) (i j : Nat)
    (_hij : i ≠ j)
    (hi : dist.get? i = some (maxVal dist))
    (hj : dist.get? j = some (maxVal dist)) :
    dist.get? (selectToken dist) = some (maxVal dist) ∧
    ∀ k, dist.get? k = some (maxVal dist) → selectToken dist ≤ k := by
  have hne : dist ≠ [] := by
    intro hd
    subst hd
    simp at hi
  refine ⟨get_selectToken dist hne, ?_⟩
  intro k hk
  by_contra hlt
  push_neg at hlt
  exact lt_irrefl _ (selectToken_first dist k hlt _ hk)

/-- Witness for C8 at a distribution with a tied maximum at ids 1 and 2. -/
theorem selectToken_picks_lowest_maximizer_witness :
    ((1 : Nat) ≠ 2 ∧
     ([1, 3, 3, 2] : List Int).get? 1 = some (maxVal [1, 3, 3, 2]) ∧
     ([1, 3, 3, 2] : List Int).get? 2 = some (maxVal [1, 3, 3, 2])) ∧
    (([1, 3, 3, 2] : List Int).get? (selectToken [1, 3, 3, 2]) =
       some (maxVal [1, 3, 3, 2]) ∧
     ∀ k, ([1, 3, 3, 2] : List Int).get? k = some (maxVal [1, 3, 3, 2]) →
       selectToken [1, 3, 3, 2] ≤ k) :=
  ⟨⟨by decide, by decide, by decide⟩,
   selectToken_picks_lowest_maximizer [1, 3, 3, 2] 1 2
     (by decide) (by decide) (by decide)⟩

/-- C9: `Init` constructs its model file paths with the concrete
extension `.axmodel`: the documented encoder/decoder paths instantiate
the abstract resolution pattern of the design document at
model-ext = axmodel, and the tokens/config paths match its patterns. -/
theorem init_model_paths_axmodel (mp mt : String) :
    encoderModelPath mp mt = specComponentPath mp mt "encoder" "axmodel" ∧
    decoderModelPath mp mt = specComponentPath mp mt "decoder" "axmodel" ∧
    tokensFilePath mp mt = specTokensPath mp mt ∧
    configFilePath mp mt = specConfigPath mp mt := by
  refine ⟨?_, ?_, ?_, ?_⟩ <;>
    simp [encoderModelPath, decoderModelPath, tokensFilePath,
      configFilePath, specComponentPath, specTokensPath, specConfigPath,
      String.append_assoc]

/-- C10: the documented precondition of `RunFile` is a 16 kHz mono
float32 PCM WAV file; under it, `RunFile` is exactly the PCM pipeline
applied to the raw samples of the file, with no resampling step, so the
transcription guarantees of the interface are those of 16 kHz pcmf32
input. -/
theorem runFile_requires_16k_pcmf32 (ctx : Context) (wav : WavFile)
    (h : runFilePre wav) :
    runFile ctx wav = runPCM ctx wav.samples := by
  obtain ⟨hsr, hc, hf⟩ := h
  unfold runFile decodeWav
  rw [if_pos ⟨hc, hf⟩]

/-- Witness for C10 at a concrete 16 kHz mono float32 file. -/
theorem runFile_requires_16k_pcmf32_witness :
    runFilePre ⟨16000, 1, true, [(1 : Rat)]⟩ ∧
    runFile demoCtx ⟨16000, 1, true, [(1 : Rat)]⟩ =
      runPCM demoCtx (WavFile.samples ⟨16000, 1, true, [(1 : Rat)]⟩) :=
  ⟨⟨rfl, rfl, rfl⟩,
   runFile_requires_16k_pcmf32 demoCtx ⟨16000, 1, true, [(1 : Rat)]⟩
     ⟨rfl, rfl, rfl⟩⟩
